import Mathlib

/-!
Verification of the headlessforms submission pipeline.

This file shallowly embeds, in Lean 4, the parts of the Go source that the
checked properties concern: the spam scorer (`spam.Detector.Analyze`), the
submission ingest orchestrator (`service.SubmissionService.Submit`), the
per-source token-bucket rate limiter (`middleware.RateLimiter`), and the
webhook delivery engine (`webhook.Service.deliver` / `sendRequest` /
`signPayload`), including executable SHA-256 and HMAC-SHA256 models of the
Go standard library primitives the webhook signer calls.

Go machine integers are modelled as `Nat`/`Int` with explicit `% 2^w` where
overflow matters; Go maps become association lists with unique keys; fallible
repository calls become explicit boolean oracles; clock reads become explicit
`Int` timestamp parameters (nanoseconds, matching `time.Duration`/`time.Time`
arithmetic in the source).
-/

/-! ## JSON values

Submitted form data is a Go `map[string]interface{}` decoded from JSON.  Only
the string case is ever inspected by the modelled code (type assertions
`v.(string)`); the other constructors stand for every non-string JSON value. -/

inductive JsonValue where
  | str (s : String)
  | num (n : Int)
  | jbool (b : Bool)
  | jnull
deriving DecidableEq, Repr

/-- Lookup in an association list with string keys; models reading a Go map
(`v, ok := m[k]`), with `none` for a missing key. -/
def lookupKey {α : Type} (k : String) : List (String × α) → Option α
  | [] => none
  | (a, v) :: rest => if a = k then some v else lookupKey k rest

/-- Overwrite-or-insert in an association list; models a Go map write
`m[k] = v`. -/
def setKey {α : Type} (k : String) (v : α) : List (String × α) → List (String × α)
  | [] => [(k, v)]
  | (a, w) :: rest => if a = k then (a, v) :: rest else (a, w) :: setKey k v rest

/-- Delete a key; models Go `delete(m, k)`. -/
def removeKey {α : Type} (k : String) : List (String × α) → List (String × α)
  | [] => []
  | (a, v) :: rest => if a = k then removeKey k rest else (a, v) :: removeKey k rest

/-! ## String scanning primitives

The spam scorer uses `strings.Contains` and `strings.Count` from the Go
standard library; both are modelled here over `List Char`. -/

/-- List-of-characters prefix test (Go `strings.HasPrefix` on the rest of the
scan position). -/
def prefixChars : List Char → List Char → Bool
  | [], _ => true
  | _ :: _, [] => false
  | p :: ps, c :: cs => p == c && prefixChars ps cs

/-- Models Go `strings.Contains s pat`: some suffix of `s` starts with `pat`. -/
def containsSub (pat : List Char) : List Char → Bool
  | [] => prefixChars pat []
  | c :: rest => prefixChars pat (c :: rest) || containsSub pat rest

/-- Scanning loop for `countOcc`, structurally recursive on a fuel bound on
the remaining scan length (every step consumes at least one character, so
fuel equal to the input length is enough). -/
def countOccAux (pat : List Char) : Nat → List Char → Nat
  | 0, _ => 0
  | _, [] => 0
  | fuel + 1, c :: rest =>
    if prefixChars pat (c :: rest) && decide (0 < pat.length) then
      1 + countOccAux pat fuel (rest.drop (pat.length - 1))
    else
      countOccAux pat fuel rest

/-- Models Go `strings.Count s pat` for a non-empty pattern: the number of
non-overlapping instances of `pat` in `s`, scanning left to right. -/
def countOcc (pat : List Char) (s : List Char) : Nat :=
  countOccAux pat s.length s

/-! ## Spam scorer (`spam.Detector.Analyze`) -/

/-- Configuration of the spam detector (`spam.Config`).  Durations are in
nanoseconds, matching Go `time.Duration`. -/
structure SpamConfig where
  scoreThreshold : Int
  rateLimitWindow : Int
  rateLimitMax : Nat
  honeypotFieldNames : List String
deriving DecidableEq, Repr

/-- Default configuration (`spam.DefaultConfig`): threshold 50, window one
minute, max 10 per window, the five default honeypot field names. -/
def defaultConfig : SpamConfig :=
  { scoreThreshold := 50
    rateLimitWindow := 60000000000
    rateLimitMax := 10
    honeypotFieldNames := ["_honeypot", "_hp", "website", "url", "fax"] }

/-- Result of spam analysis (`spam.SpamScore`). -/
structure SpamScore where
  score : Int
  isSpam : Bool
  flags : List String
  threshold : Int
deriving DecidableEq, Repr

/-- Rule 1 trigger for one honeypot field name: the field is present in the
data and its value is a non-empty string (`val.(string)` type assertion in
the source; non-string values never trigger). -/
def honeypotHit (data : List (String × JsonValue)) (field : String) : Bool :=
  match lookupKey field data with
  | some (.str s) => decide (s ≠ "")
  | _ => false

/-- Score contribution of the honeypot loop: +100 per configured field that
is present and non-empty. -/
def honeypotScore (data : List (String × JsonValue)) : List String → Int
  | [] => 0
  | f :: rest => (if honeypotHit data f then 100 else 0) + honeypotScore data rest

/-- Flags appended by the honeypot loop, in configuration order. -/
def honeypotFlags (data : List (String × JsonValue)) : List String → List String
  | [] => []
  | f :: rest =>
    (if honeypotHit data f then ["honeypot_filled:" ++ f] else []) ++ honeypotFlags data rest

/-- The bot user-agent patterns from the source, in order. -/
def botPatterns : List String :=
  ["bot", "crawler", "spider", "curl", "wget", "python", "scrapy", "headless"]

/-- First bot pattern contained in the (already lowercased) user agent; the
source `break`s out of the loop at the first match. -/
def firstBotPattern (ua : List Char) : List String → Option String
  | [] => none
  | p :: rest => if containsSub p.toList ua then some p else firstBotPattern ua rest

/-- Lowercased character list of the user agent (Go `strings.ToLower`). -/
def lowerChars (s : String) : List Char := s.toList.map Char.toLower

/-- Rule 2 score: +30 for an empty user agent, else +40 for the first bot
pattern match, else 0. -/
def uaScore (userAgent : String) : Int :=
  if userAgent = "" then 30
  else
    match firstBotPattern (lowerChars userAgent) botPatterns with
    | some _ => 40
    | none => 0

/-- Rule 2 flags. -/
def uaFlags (userAgent : String) : List String :=
  if userAgent = "" then ["empty_user_agent"]
  else
    match firstBotPattern (lowerChars userAgent) botPatterns with
    | some p => ["bot_user_agent:" ++ p]
    | none => []

/-- Rule 3 trigger: client-reported fill time strictly between 0 and 2
seconds (2000000000 ns). -/
def fastHit (submissionTime : Int) : Bool :=
  decide (0 < submissionTime) && decide (submissionTime < 2000000000)

/-- Rule 4: `Detector.isRateLimited` over the detector's own per-IP timestamp
map: at least `rateLimitMax` recorded timestamps strictly after
`now - rateLimitWindow`. -/
def isRateLimited (cfg : SpamConfig) (rateLimits : List (String × List Int))
    (now : Int) (ip : String) : Bool :=
  match lookupKey ip rateLimits with
  | none => false
  | some ts =>
    decide (cfg.rateLimitMax ≤ (ts.filter (fun t => decide (now - cfg.rateLimitWindow < t))).length)

/-- Rule 5 trigger for one field value: a string that contains the literal
substring http-colon-slash-slash or its https variant, and contains the
substring http strictly more than twice (Go `strings.Count`). -/
def linksHit (v : JsonValue) : Bool :=
  match v with
  | .str s =>
    (containsSub "http://".toList s.toList || containsSub "https://".toList s.toList) &&
      decide (2 < countOcc "http".toList s.toList)
  | _ => false

/-- Rule 5 score: the source loop has no break, so each matching field adds
15. -/
def linkScore : List (String × JsonValue) → Int
  | [] => 0
  | (_, v) :: rest => (if linksHit v then 15 else 0) + linkScore rest

/-- Rule 5 flags: one multiple_links flag per matching field. -/
def linkFlags : List (String × JsonValue) → List String
  | [] => []
  | (_, v) :: rest => (if linksHit v then ["multiple_links"] else []) ++ linkFlags rest

/-- Total score before the cap at 100: the sum of the five rule
contributions, in source order. -/
def analyzeRaw (cfg : SpamConfig) (rateLimits : List (String × List Int)) (now : Int)
    (ip userAgent : String) (data : List (String × JsonValue)) (submissionTime : Int) : Int :=
  honeypotScore data cfg.honeypotFieldNames + uaScore userAgent +
    (if fastHit submissionTime then 25 else 0) +
    (if isRateLimited cfg rateLimits now ip then 30 else 0) + linkScore data

/-- All flags, in source order. -/
def analyzeFlags (cfg : SpamConfig) (rateLimits : List (String × List Int)) (now : Int)
    (ip userAgent : String) (data : List (String × JsonValue)) (submissionTime : Int) :
    List String :=
  honeypotFlags data cfg.honeypotFieldNames ++ uaFlags userAgent ++
    (if fastHit submissionTime then ["fast_submission"] else []) ++
    (if isRateLimited cfg rateLimits now ip then ["rate_limited"] else []) ++ linkFlags data

/-- Embedding of `spam.Detector.Analyze`: run all five rules, cap the score
at 100, and compare against the threshold. -/
def analyze (cfg : SpamConfig) (rateLimits : List (String × List Int)) (now : Int)
    (ip userAgent : String) (data : List (String × JsonValue)) (submissionTime : Int) :
    SpamScore :=
  let total := analyzeRaw cfg rateLimits now ip userAgent data submissionTime
  let score := if 100 < total then 100 else total
  { score := score
    isSpam := decide (cfg.scoreThreshold ≤ score)
    flags := analyzeFlags cfg rateLimits now ip userAgent data submissionTime
    threshold := cfg.scoreThreshold }

/-! ## Submission ingest orchestrator (`service.SubmissionService.Submit`)

The repository is modelled as in-memory lists; the two fallible repository
calls inside the admitted path (`Submission().Create` and
`Form().IncrementSubmissionCount`) are modelled by boolean oracles saying
whether the durable write succeeds.  `uuid.New()` and `time.Now()` become the
explicit `newID` / `now` parameters.  A submission record's `Data`/`Meta`
hold the JSON object content that the source marshals just before the write. -/

/-- The fields of `domain.Form` that `Submit` reads. -/
structure Form where
  id : String
  publicID : String
  name : String
  status : String
  accessMode : String
  submissionKey : String
  submissionCount : Int
deriving DecidableEq, Repr

/-- A persisted `domain.Submission` record. -/
structure SubmissionRec where
  id : String
  formID : String
  status : String
  data : List (String × JsonValue)
  meta : List (String × JsonValue)
  createdAt : Int
deriving DecidableEq, Repr

/-- The distinct error outcomes of `Submit` (`domain.ErrFormNotFound`, the
inactive-form error, `domain.ErrInvalidSubmissionKey`,
`domain.ErrAuthRequired`, and a failed durable write). -/
inductive SubmitError where
  | formNotFound
  | formNotActive
  | invalidSubmissionKey
  | authRequired
  | saveFailed
deriving DecidableEq, Repr

/-- Durable repository state: registered forms and persisted submissions. -/
structure RepoState where
  forms : List Form
  submissions : List SubmissionRec
deriving DecidableEq, Repr

/-- Models `Form().GetByPublicID`: first form with the given public id. -/
def findForm (pid : String) : List Form → Option Form
  | [] => none
  | f :: rest => if f.publicID = pid then some f else findForm pid rest

/-- Models `Form().IncrementSubmissionCount`: bump the counter of the form
with the given internal id. -/
def incrementCount (fid : String) : List Form → List Form
  | [] => []
  | f :: rest =>
    if f.id = fid then { f with submissionCount := f.submissionCount + 1 } :: rest
    else f :: incrementCount fid rest

/-- The Go string type assertion `data["_submission_key"].(string)` with its
zero-value default: the submitted key, or the empty string when the field is
missing or not a string. -/
def submittedKeyOf (data : List (String × JsonValue)) : String :=
  match lookupKey "_submission_key" data with
  | some (.str s) => s
  | _ => ""

/-- The access-mode switch inside `Submit`: on success returns the (possibly
stripped) data and meta maps to persist; the default branch of the source
switch performs no check at all. -/
def accessCheck (form : Form) (data meta : List (String × JsonValue)) :
    Except SubmitError (List (String × JsonValue) × List (String × JsonValue)) :=
  if form.accessMode = "with_key" then
    let submittedKey := submittedKeyOf data
    if submittedKey = "" ∨ submittedKey ≠ form.submissionKey then
      .error .invalidSubmissionKey
    else
      .ok (removeKey "_submission_key" data, meta)
  else if form.accessMode = "private" then
    match lookupKey "_auth_user_id" meta with
    | some (.str s) =>
      if s = "" then .error .authRequired
      else .ok (data, removeKey "_auth_user_id" meta)
    | _ => .error .authRequired
  else
    .ok (data, meta)

/-- Embedding of `SubmissionService.Submit`: resolve the form, require it
active, run the access-mode switch, persist the record if `createOk`, then
increment the form counter with the error discarded (the `incrementOk`
oracle says whether that best-effort write lands). -/
def Submit (st : RepoState) (createOk incrementOk : Bool) (newID : String) (now : Int)
    (publicID : String) (data meta : List (String × JsonValue)) :
    RepoState × Except SubmitError SubmissionRec :=
  match findForm publicID st.forms with
  | none => (st, .error .formNotFound)
  | some form =>
    if form.status ≠ "active" then (st, .error .formNotActive)
    else
      match accessCheck form data meta with
      | .error e => (st, .error e)
      | .ok (d2, m2) =>
        let sub : SubmissionRec :=
          { id := newID, formID := form.id, status := "unread"
            data := d2, meta := m2, createdAt := now }
        if createOk then
          let st1 : RepoState := { st with submissions := st.submissions ++ [sub] }
          let st2 : RepoState :=
            if incrementOk then { st1 with forms := incrementCount form.id st1.forms } else st1
          (st2, .ok sub)
        else (st, .error .saveFailed)

/-! ## Rate limiter (`middleware.RateLimiter`)

Token bucket per source key.  Timestamps are `Int` nanoseconds;
`time.Since(v.lastReset) > rl.window` becomes `rl.window < now - v.lastReset`. -/

/-- One entry of the visitors map (`middleware.visitor`). -/
structure Visitor where
  tokens : Nat
  lastReset : Int
deriving DecidableEq, Repr

/-- The limiter state (`middleware.RateLimiter`): visitors map, burst limit,
window. -/
structure RateLimiter where
  visitors : List (String × Visitor)
  limit : Nat
  window : Int
deriving DecidableEq, Repr

/-- Embedding of `RateLimiter.getVisitor` at time `now`: lazily create a full
bucket for an unseen key; refill and reset when strictly more than the window
has elapsed since the last reset. -/
def getVisitor (rl : RateLimiter) (now : Int) (ip : String) : Visitor × RateLimiter :=
  match lookupKey ip rl.visitors with
  | none =>
    let v : Visitor := { tokens := rl.limit, lastReset := now }
    (v, { rl with visitors := setKey ip v rl.visitors })
  | some v =>
    if rl.window < now - v.lastReset then
      let v2 : Visitor := { tokens := rl.limit, lastReset := now }
      (v2, { rl with visitors := setKey ip v2 rl.visitors })
    else (v, rl)

/-- Embedding of `RateLimiter.allow` at time `now`: admit and consume a token
when one remains, else reject. -/
def allow (rl : RateLimiter) (now : Int) (ip : String) : Bool × RateLimiter :=
  let vrl := getVisitor rl now ip
  if 0 < vrl.fst.tokens then
    (true,
      { vrl.snd with
        visitors := setKey ip { vrl.fst with tokens := vrl.fst.tokens - 1 } vrl.snd.visitors })
  else (false, vrl.snd)

/-- Run a sequence of `allow` calls for one source key at the given times,
collecting the admit/reject answers. -/
def runCalls (rl : RateLimiter) (ip : String) : List Int → List Bool
  | [] => []
  | t :: rest =>
    let res := allow rl t ip
    res.fst :: runCalls res.snd ip rest

/-! ## Webhook delivery engine (`webhook.Service.deliver`)

The payload is marshalled once before the loop; every attempt posts the same
`body`.  The outcome of the HTTP round trip of attempt `k` (1-based) is given
by the `responses` oracle: a transport error, or a status code. -/

/-- Outcome of one HTTP POST (`s.client.Do`): transport error, or a response
status code. -/
inductive AttemptResult where
  | transportError
  | status (code : Nat)
deriving DecidableEq, Repr

/-- Whether `sendRequest` returns nil for this outcome: a status in the 2xx
range; a transport error or any other status is a failure. -/
def attemptOk (r : AttemptResult) : Bool :=
  match r with
  | .status code => decide (200 ≤ code) && decide (code < 300)
  | .transportError => false

/-- Observable trace of one delivery run: the body posted on each attempt (in
order), the backoff sleeps in seconds between attempts, and whether delivery
succeeded. -/
structure DeliverTrace where
  sentBodies : List (List Nat)
  sleeps : List Nat
  delivered : Bool
deriving DecidableEq, Repr

/-- The retry budget fixed by `webhook.NewService`. -/
def webhookRetries : Nat := 3

/-- The attempt loop of `deliver`, from `attempt` with the given fuel
(`retries - attempt + 1` remaining iterations): stop on the first success;
otherwise sleep `2^(attempt-1)` seconds when another attempt remains. -/
def deliverGo (responses : Nat → AttemptResult) (body : List Nat) (retries : Nat) :
    Nat → Nat → DeliverTrace
  | _, 0 => { sentBodies := [], sleeps := [], delivered := false }
  | attempt, fuel + 1 =>
    if attemptOk (responses attempt) then
      { sentBodies := [body], sleeps := [], delivered := true }
    else if attempt < retries then
      let rest := deliverGo responses body retries (attempt + 1) fuel
      { sentBodies := body :: rest.sentBodies
        sleeps := 2 ^ (attempt - 1) :: rest.sleeps
        delivered := rest.delivered }
    else
      { sentBodies := [body], sleeps := [], delivered := false }

/-- Embedding of `Service.deliver` for the already-marshalled body: up to 3
attempts starting at attempt 1. -/
def deliver (responses : Nat → AttemptResult) (body : List Nat) : DeliverTrace :=
  deliverGo responses body webhookRetries 1 webhookRetries

/-! ## SHA-256 and HMAC-SHA256

`Service.signPayload` calls `hmac.New(sha256.New, secret)` from the Go
standard library.  The primitives are modelled here executably: FIPS 180-4
SHA-256 over byte lists (bytes and 32-bit words as `Nat` with explicit
`% 2^w`), and RFC 2104 HMAC with the 64-byte SHA-256 block size, which is
what `crypto/hmac` computes. -/

/-- Two to the 32, the word modulus. -/
def w32 : Nat := 4294967296

/-- Right rotation of a 32-bit word. -/
def rotr32 (n x : Nat) : Nat := ((x >>> n) ||| (x <<< (32 - n))) % w32

/-- FIPS 180-4 Sigma0. -/
def bigSigma0 (x : Nat) : Nat := rotr32 2 x ^^^ rotr32 13 x ^^^ rotr32 22 x

/-- FIPS 180-4 Sigma1. -/
def bigSigma1 (x : Nat) : Nat := rotr32 6 x ^^^ rotr32 11 x ^^^ rotr32 25 x

/-- FIPS 180-4 sigma0. -/
def smallSigma0 (x : Nat) : Nat := rotr32 7 x ^^^ rotr32 18 x ^^^ (x >>> 3)

/-- FIPS 180-4 sigma1. -/
def smallSigma1 (x : Nat) : Nat := rotr32 17 x ^^^ rotr32 19 x ^^^ (x >>> 10)

/-- FIPS 180-4 Ch; the complement is xor with the all-ones 32-bit word. -/
def chFn (x y z : Nat) : Nat := (x &&& y) ^^^ ((x ^^^ 4294967295) &&& z)

/-- FIPS 180-4 Maj. -/
def majFn (x y z : Nat) : Nat := (x &&& y) ^^^ (x &&& z) ^^^ (y &&& z)

/-- The 64 SHA-256 round constants. -/
def sha256K : List Nat :=
  [1116352408, 1899447441, 3049323471, 3921009573, 961987163,
   1508970993, 2453635748, 2870763221, 3624381080, 310598401,
   607225278, 1426881987, 1925078388, 2162078206, 2614888103,
   3248222580, 3835390401, 4022224774, 264347078, 604807628,
   770255983, 1249150122, 1555081692, 1996064986, 2554220882,
   2821834349, 2952996808, 3210313671, 3336571891, 3584528711,
   113926993, 338241895, 666307205, 773529912, 1294757372,
   1396182291, 1695183700, 1986661051, 2177026350, 2456956037,
   2730485921, 2820302411, 3259730800, 3345764771, 3516065817,
   3600352804, 4094571909, 275423344, 430227734, 506948616,
   659060556, 883997877, 958139571, 1322822218, 1537002063,
   1747873779, 1955562222, 2024104815, 2227730452, 2361852424,
   2428436474, 2756734187, 3204031479, 3329325298]

/-- The eight 32-bit hash state words. -/
structure Hash8 where
  h0 : Nat
  h1 : Nat
  h2 : Nat
  h3 : Nat
  h4 : Nat
  h5 : Nat
  h6 : Nat
  h7 : Nat
deriving DecidableEq, Repr

/-- The SHA-256 initial hash value. -/
def sha256H0 : Hash8 :=
  ⟨1779033703, 3144134277, 1013904242, 2773480762,
   1359893119, 2600822924, 528734635, 1541459225⟩

/-- The eight working registers of the compression function. -/
structure Regs where
  a : Nat
  b : Nat
  c : Nat
  d : Nat
  e : Nat
  f : Nat
  g : Nat
  h : Nat
deriving DecidableEq, Repr

/-- One round of the SHA-256 compression function. -/
def sha256Round (r : Regs) (k w : Nat) : Regs :=
  let t1 := (r.h + bigSigma1 r.e + chFn r.e r.f r.g + k + w) % w32
  let t2 := (bigSigma0 r.a + majFn r.a r.b r.c) % w32
  { a := (t1 + t2) % w32, b := r.a, c := r.b, d := r.c
    e := (r.d + t1) % w32, f := r.e, g := r.f, h := r.g }

/-- Big-endian packing of four bytes into one word. -/
def word4 (a b c d : Nat) : Nat := a * 16777216 + b * 65536 + c * 256 + d

/-- The sixteen big-endian message words of one 64-byte block. -/
def blockWords : List Nat → List Nat
  | a :: b :: c :: d :: rest => word4 a b c d :: blockWords rest
  | _ => []

/-- Message-schedule extension: append the next scheduled word the given
number of times (48 times for SHA-256, taking 16 words to 64). -/
def extendLoop (ws : List Nat) : Nat → List Nat
  | 0 => ws
  | n + 1 =>
    let i := ws.length
    let next := (smallSigma1 (ws.getD (i - 2) 0) + ws.getD (i - 7) 0 +
                 smallSigma0 (ws.getD (i - 15) 0) + ws.getD (i - 16) 0) % w32
    extendLoop (ws ++ [next]) n

/-- Compress one 64-byte block into the running hash state. -/
def compressBlock (hs : Hash8) (block : List Nat) : Hash8 :=
  let ws := extendLoop (blockWords block) 48
  let r0 : Regs := ⟨hs.h0, hs.h1, hs.h2, hs.h3, hs.h4, hs.h5, hs.h6, hs.h7⟩
  let r := (sha256K.zip ws).foldl (fun r kw => sha256Round r kw.fst kw.snd) r0
  { h0 := (hs.h0 + r.a) % w32, h1 := (hs.h1 + r.b) % w32
    h2 := (hs.h2 + r.c) % w32, h3 := (hs.h3 + r.d) % w32
    h4 := (hs.h4 + r.e) % w32, h5 := (hs.h5 + r.f) % w32
    h6 := (hs.h6 + r.g) % w32, h7 := (hs.h7 + r.h) % w32 }

/-- The eight big-endian bytes of the 64-bit message bit length. -/
def lenBytes64 (n : Nat) : List Nat :=
  [(n >>> 56) % 256, (n >>> 48) % 256, (n >>> 40) % 256, (n >>> 32) % 256,
   (n >>> 24) % 256, (n >>> 16) % 256, (n >>> 8) % 256, n % 256]

/-- FIPS 180-4 padding: a 0x80 byte, zeros to 56 mod 64, then the bit length
modulo 2^64 in big-endian. -/
def padMessage (msg : List Nat) : List Nat :=
  let l := msg.length
  let z := (120 - ((l + 1) % 64)) % 64
  msg ++ [128] ++ List.replicate z 0 ++ lenBytes64 ((l * 8) % 18446744073709551616)

/-- Block-splitting loop, structurally recursive on a fuel bound on the
number of remaining blocks (every step consumes at least one byte, so fuel
equal to the input length is enough). -/
def chunk64Aux : Nat → List Nat → List (List Nat)
  | 0, _ => []
  | _, [] => []
  | fuel + 1, c :: rest => ((c :: rest).take 64) :: chunk64Aux fuel ((c :: rest).drop 64)

/-- Split a padded message into 64-byte blocks. -/
def chunk64 (l : List Nat) : List (List Nat) :=
  chunk64Aux l.length l

/-- The four big-endian bytes of one hash word. -/
def wordBytes (w : Nat) : List Nat :=
  [(w >>> 24) % 256, (w >>> 16) % 256, (w >>> 8) % 256, w % 256]

/-- The 32-byte digest of a final hash state. -/
def digestBytes (hs : Hash8) : List Nat :=
  wordBytes hs.h0 ++ wordBytes hs.h1 ++ wordBytes hs.h2 ++ wordBytes hs.h3 ++
  wordBytes hs.h4 ++ wordBytes hs.h5 ++ wordBytes hs.h6 ++ wordBytes hs.h7

/-- SHA-256 of a byte list (FIPS 180-4; Go `crypto/sha256.Sum256`). -/
def sha256 (msg : List Nat) : List Nat :=
  digestBytes ((chunk64 (padMessage msg)).foldl compressBlock sha256H0)

/-- HMAC-SHA256 (RFC 2104, block size 64; Go `hmac.New(sha256.New, key)`
followed by `Write`/`Sum`): hash an over-long key first, zero-pad to the
block size, then the nested inner (0x36) and outer (0x5c) hashes. -/
def hmacSha256 (key msg : List Nat) : List Nat :=
  let k1 := if 64 < key.length then sha256 key else key
  let k0 := k1 ++ List.replicate (64 - k1.length) 0
  let inner := sha256 ((k0.map (fun b => b ^^^ 54)) ++ msg)
  sha256 ((k0.map (fun b => b ^^^ 92)) ++ inner)

/-- The UTF-8 bytes of a string, as `Nat`s; models Go `[]byte(s)`. -/
def strBytes (s : String) : List Nat := s.toUTF8.toList.map (fun b => b.toNat)

/-- One lowercase hex digit, indexing Go's `encoding/hex` table
0123456789abcdef; out-of-range indices (never produced by byte input) fall
back to the zero digit. -/
def hexDigit (n : Nat) : Char :=
  match n with
  | 0 => '0' | 1 => '1' | 2 => '2' | 3 => '3' | 4 => '4' | 5 => '5' | 6 => '6' | 7 => '7'
  | 8 => '8' | 9 => '9' | 10 => 'a' | 11 => 'b' | 12 => 'c' | 13 => 'd' | 14 => 'e' | 15 => 'f'
  | _ => '0'

/-- Lowercase hex encoding of a byte list (Go `hex.EncodeToString`): high
nibble digit then low nibble digit per byte. -/
def hexEncode (bytes : List Nat) : String :=
  String.mk (List.flatten (bytes.map (fun b => [hexDigit (b / 16), hexDigit (b % 16)])))

/-- Embedding of `Service.signPayload`: the sha256= prefix followed by the
lowercase hex HMAC-SHA256 of the body keyed by the secret's bytes. -/
def signPayload (body : List Nat) (secret : String) : String :=
  "sha256=" ++ hexEncode (hmacSha256 (strBytes secret) body)

/-- The headers set by `Service.sendRequest`, in source order; the signature
header is set only when the secret is non-empty. -/
def buildHeaders (secret : String) (body : List Nat) (timestamp : String) :
    List (String × String) :=
  [("Content-Type", "application/json"),
   ("User-Agent", "HeadlessForms-Webhook/1.0"),
   ("X-Webhook-Event", "submission.created"),
   ("X-Webhook-Timestamp", timestamp)] ++
  (if secret = "" then [] else [("X-Webhook-Signature", signPayload body secret)])

/-- Expected admit/reject answers while a bucket holding `m` tokens is
simply drained with no refill: each call admits while tokens remain. -/
def drain (m : Nat) : Nat → List Bool
  | 0 => []
  | k + 1 => decide (0 < m) :: drain (m - 1) k

/-- The byte list named by a function from 33 positions to byte values;
carrier of the pigeonhole argument about HMAC collisions. -/
def byteFun33ToBytes (g : Fin 33 → Fin 256) : List Nat := (List.ofFn g).map Fin.val

/-- HMAC-SHA256 of a 33-byte payload under a fixed secret, repackaged as a
function into the 32 output byte positions (the clamp by 256 is the
identity on actual digest bytes, which are below 256). -/
def hmacImage (secret : List Nat) (g : Fin 33 → Fin 256) : Fin 32 → Fin 256 :=
  fun i =>
    ⟨(hmacSha256 secret (byteFun33ToBytes g)).getD i.val 0 % 256,
      Nat.mod_lt _ (by norm_num)⟩

/-! ## Theorems -/

theorem honeypotScore_nonneg (data : List (String × JsonValue)) :
    ∀ fields : List String, 0 ≤ honeypotScore data fields := by
  intro fields
  induction fields with
  | nil => simp [honeypotScore]
  | cons f rest ih =>
    simp only [honeypotScore]
    split <;> omega

theorem uaScore_nonneg (ua : String) : 0 ≤ uaScore ua := by
  unfold uaScore
  split
  · omega
  · split <;> omega

theorem linkScore_nonneg : ∀ data : List (String × JsonValue), 0 ≤ linkScore data := by
  intro data
  induction data with
  | nil => simp [linkScore]
  | cons p rest ih =>
    obtain ⟨k, v⟩ := p
    simp only [linkScore]
    split <;> omega

theorem analyzeRaw_nonneg (cfg : SpamConfig) (rateLimits : List (String × List Int)) (now : Int)
    (ip ua : String) (data : List (String × JsonValue)) (t : Int) :
    0 ≤ analyzeRaw cfg rateLimits now ip ua data t := by
  unfold analyzeRaw
  have h1 := honeypotScore_nonneg data cfg.honeypotFieldNames
  have h2 := uaScore_nonneg ua
  have h3 := linkScore_nonneg data
  split <;> split <;> omega

theorem honeypotScore_ge_of_hit (data : List (String × JsonValue)) (f : String) :
    ∀ fields : List String, f ∈ fields → honeypotHit data f = true →
      100 ≤ honeypotScore data fields := by
  intro fields
  induction fields with
  | nil => intro h; simp at h
  | cons g rest ih =>
    intro hmem hhit
    have hnn := honeypotScore_nonneg data rest
    rcases List.mem_cons.mp hmem with heq | htail
    · subst heq
      simp only [honeypotScore, hhit, if_true]
      omega
    · have := ih htail hhit
      simp only [honeypotScore]
      split <;> omega

/-- Claim C4: for every input to the spam scorer (arbitrary configuration,
source key, user agent, field map, fill time, and limiter state) the returned
score lies in the closed interval from 0 to 100. -/
theorem c4_score_within_bounds (cfg : SpamConfig) (rateLimits : List (String × List Int))
    (now : Int) (ip ua : String) (data : List (String × JsonValue)) (t : Int) :
    0 ≤ (analyze cfg rateLimits now ip ua data t).score ∧
      (analyze cfg rateLimits now ip ua data t).score ≤ 100 := by
  have hnn := analyzeRaw_nonneg cfg rateLimits now ip ua data t
  simp only [analyze]
  split <;> omega

/-- Claim C3: whenever the submitted data contains one of the default
honeypot fields with a non-empty string value, the analysis under the default
configuration reports spam, regardless of every other input. -/
theorem c3_honeypot_forces_spam (rateLimits : List (String × List Int)) (now : Int)
    (ip ua : String) (data : List (String × JsonValue)) (t : Int) (f : String) (s : String)
    (hf : f ∈ defaultConfig.honeypotFieldNames)
    (hlook : lookupKey f data = some (.str s)) (hs : s ≠ "") :
    (analyze defaultConfig rateLimits now ip ua data t).isSpam = true := by
  have hhit : honeypotHit data f = true := by
    unfold honeypotHit
    rw [hlook]
    simpa using hs
  have hscore : 100 ≤ honeypotScore data defaultConfig.honeypotFieldNames :=
    honeypotScore_ge_of_hit data f defaultConfig.honeypotFieldNames hf hhit
  have h2 := uaScore_nonneg ua
  have h3 := linkScore_nonneg data
  have hraw : 100 ≤ analyzeRaw defaultConfig rateLimits now ip ua data t := by
    unfold analyzeRaw
    split <;> split <;> omega
  have hth : defaultConfig.scoreThreshold = 50 := rfl
  simp only [analyze, decide_eq_true_eq, hth]
  split <;> omega

/-- Witness for C3 at a concrete input: the default honeypot field written
with text forces spam. -/
theorem c3_witness :
    (analyze defaultConfig [] 0 "1.2.3.4" "Mozilla/5.0"
        [("name", .str "Ana"), ("_honeypot", .str "gotcha")] 0).isSpam = true :=
  c3_honeypot_forces_spam [] 0 "1.2.3.4" "Mozilla/5.0"
    [("name", .str "Ana"), ("_honeypot", .str "gotcha")] 0 "_honeypot" "gotcha"
    (by decide) (by decide) (by decide)

/-- Counterexample to claim C5 as stated: with two fields each containing
three http links, the scorer adds 15 twice (score 30, not 15) and appends the
multiple_links flag twice — the rule fires per matching field, there is no
first-match-only break in the source loop. -/
theorem c5_counterexample :
    (analyze defaultConfig [] 0 "1.2.3.4" "Mozilla/5.0"
        [("a", .str "http://x http://y http://z"), ("b", .str "http://x http://y http://z")]
        0).score = 30 ∧
      (analyze defaultConfig [] 0 "1.2.3.4" "Mozilla/5.0"
          [("a", .str "http://x http://y http://z"), ("b", .str "http://x http://y http://z")]
          0).flags.count "multiple_links" = 2 := by
  constructor <;> decide

theorem linkScore_eq_count (data : List (String × JsonValue)) :
    linkScore data = 15 * ((data.filter fun p => linksHit p.snd).length : Int) := by
  induction data with
  | nil => simp [linkScore]
  | cons p rest ih =>
    obtain ⟨k, v⟩ := p
    simp only [linkScore, List.filter_cons]
    cases hv : linksHit v
    · simp only [hv, if_false, Bool.false_eq_true, ih]
      omega
    · simp only [hv, if_true, ih, List.length_cons]
      push_cast
      ring

theorem linkFlags_count (data : List (String × JsonValue)) :
    (linkFlags data).count "multiple_links" = (data.filter fun p => linksHit p.snd).length := by
  induction data with
  | nil => simp [linkFlags]
  | cons p rest ih =>
    obtain ⟨k, v⟩ := p
    simp only [linkFlags, List.filter_cons]
    cases hv : linksHit v
    · simp [hv, ih]
    · simp [hv, ih]

theorem honeypotFlags_shape (data : List (String × JsonValue)) :
    ∀ fields : List String, ∀ x ∈ honeypotFlags data fields,
      ∃ f, x = "honeypot_filled:" ++ f := by
  intro fields
  induction fields with
  | nil => intro x hx; simp [honeypotFlags] at hx
  | cons g rest ih =>
    intro x hx
    simp only [honeypotFlags, List.mem_append] at hx
    rcases hx with hx | hx
    · by_cases hg : honeypotHit data g
      · simp only [hg, if_true, List.mem_singleton] at hx
        exact ⟨g, hx⟩
      · simp [hg] at hx
    · exact ih x hx

theorem multiple_links_notin_honeypotFlags (data : List (String × JsonValue))
    (fields : List String) : "multiple_links" ∉ honeypotFlags data fields := by
  intro hmem
  obtain ⟨f, hf⟩ := honeypotFlags_shape data fields "multiple_links" hmem
  have hlen : ("multiple_links" : String).length = ("honeypot_filled:" ++ f).length := by
    rw [hf]
  rw [String.length_append] at hlen
  have h16 : ("honeypot_filled:" : String).length = 16 := by decide
  have h14 : ("multiple_links" : String).length = 14 := by decide
  omega

theorem multiple_links_notin_uaFlags (ua : String) :
    "multiple_links" ∉ uaFlags ua := by
  intro hmem
  unfold uaFlags at hmem
  by_cases hua : ua = ""
  · simp [hua] at hmem
  · simp only [hua, if_false] at hmem
    rcases hp : firstBotPattern (lowerChars ua) botPatterns with _ | p
    · simp [hp] at hmem
    · rw [hp] at hmem
      simp only [List.mem_singleton] at hmem
      have hlen : ("multiple_links" : String).length = ("bot_user_agent:" ++ p).length := by
        rw [hmem]
      rw [String.length_append] at hlen
      have h15 : ("bot_user_agent:" : String).length = 15 := by decide
      have h14 : ("multiple_links" : String).length = 14 := by decide
      omega

/-- Claim C5 amended: the multiple-links rule is per-field, not
first-match-only, and fires only for string fields that contain the literal
http-link prefix.  For every input, the analysis emits exactly one
multiple_links flag per matching field, and the raw (pre-cap) score carries
exactly 15 per matching field. -/
theorem c5_links_per_field (cfg : SpamConfig) (rateLimits : List (String × List Int))
    (now : Int) (ip ua : String) (data : List (String × JsonValue)) (t : Int) :
    (analyze cfg rateLimits now ip ua data t).flags.count "multiple_links" =
      (data.filter fun p => linksHit p.snd).length ∧
    analyzeRaw cfg rateLimits now ip ua data t =
      honeypotScore data cfg.honeypotFieldNames + uaScore ua +
        (if fastHit t then 25 else 0) +
        (if isRateLimited cfg rateLimits now ip then 30 else 0) +
        15 * ((data.filter fun p => linksHit p.snd).length : Int) := by
  constructor
  · have hhp : (honeypotFlags data cfg.honeypotFieldNames).count "multiple_links" = 0 :=
      List.count_eq_zero.mpr (multiple_links_notin_honeypotFlags data cfg.honeypotFieldNames)
    have hua : (uaFlags ua).count "multiple_links" = 0 :=
      List.count_eq_zero.mpr (multiple_links_notin_uaFlags ua)
    simp only [analyze, analyzeFlags, List.count_append, hhp, hua]
    have hfast : ((if fastHit t then ["fast_submission"] else []) : List String).count
        "multiple_links" = 0 := by
      split <;> decide
    have hrate : ((if isRateLimited cfg rateLimits now ip then ["rate_limited"] else []) :
        List String).count "multiple_links" = 0 := by
      split <;> decide
    rw [hfast, hrate, linkFlags_count]
    omega
  · unfold analyzeRaw
    rw [linkScore_eq_count]

theorem lookupKey_removeKey {α : Type} (k : String) (l : List (String × α)) :
    lookupKey k (removeKey k l) = none := by
  induction l with
  | nil => rfl
  | cons p rest ih =>
    obtain ⟨a, v⟩ := p
    by_cases ha : a = k
    · simp only [removeKey, ha, if_true]
      exact ih
    · simp only [removeKey, ha, if_false, lookupKey]
      exact ih

/-- Claim C6: for an active keyed-mode form with a non-empty configured
secret, a submission whose key field equals the secret is admitted and the
persisted record's data no longer contains the key field, while a missing or
mismatching key is rejected with the invalid-submission-key error and the
repository is left unchanged. -/
theorem c6_keyed_mode_gate (st : RepoState) (incOk : Bool) (newID : String) (now : Int)
    (pid : String) (form : Form) (data meta : List (String × JsonValue))
    (hfind : findForm pid st.forms = some form)
    (hstatus : form.status = "active")
    (hmode : form.accessMode = "with_key")
    (hkey : form.submissionKey ≠ "") :
    (lookupKey "_submission_key" data = some (.str form.submissionKey) →
      (Submit st true incOk newID now pid data meta).snd =
        .ok { id := newID, formID := form.id, status := "unread"
              data := removeKey "_submission_key" data, meta := meta, createdAt := now } ∧
      ({ id := newID, formID := form.id, status := "unread"
         data := removeKey "_submission_key" data, meta := meta, createdAt := now } :
          SubmissionRec) ∈ (Submit st true incOk newID now pid data meta).fst.submissions ∧
      lookupKey "_submission_key" (removeKey "_submission_key" data) = none) ∧
    (lookupKey "_submission_key" data ≠ some (.str form.submissionKey) →
      Submit st true incOk newID now pid data meta = (st, .error .invalidSubmissionKey)) := by
  constructor
  · intro hlook
    have hsk : submittedKeyOf data = form.submissionKey := by
      unfold submittedKeyOf
      rw [hlook]
    have hac : accessCheck form data meta =
        .ok (removeKey "_submission_key" data, meta) := by
      unfold accessCheck
      simp [hmode, hsk, hkey]
    simp only [Submit, hfind, hstatus, ne_eq, not_true_eq_false, if_false, hac]
    refine ⟨rfl, ?_, lookupKey_removeKey _ _⟩
    cases incOk <;> simp
  · intro hlook
    have hguard : submittedKeyOf data = "" ∨ submittedKeyOf data ≠ form.submissionKey := by
      unfold submittedKeyOf
      cases hl : lookupKey "_submission_key" data with
      | none => exact Or.inl rfl
      | some v =>
        cases v with
        | str sv =>
          by_cases hsk : sv = form.submissionKey
          · exact absurd (by rw [hl, hsk]) hlook
          · exact Or.inr (by simpa using hsk)
        | num n => exact Or.inl rfl
        | jbool b => exact Or.inl rfl
        | jnull => exact Or.inl rfl
    have hac : accessCheck form data meta = .error .invalidSubmissionKey := by
      unfold accessCheck
      simp only [hmode, if_true, if_pos hguard]
    simp [Submit, hfind, hstatus, hac]

/-- Witness for C6 at a concrete keyed form: the matching key is admitted
with the key stripped, and a wrong key is rejected leaving the repository
unchanged. -/
theorem c6_witness :
    ((Submit
        { forms := [{ id := "f1", publicID := "p1", name := "Contact", status := "active",
                      accessMode := "with_key", submissionKey := "abc123",
                      submissionCount := 0 }], submissions := [] }
        true false "s1" 0 "p1"
        [("_submission_key", .str "abc123"), ("name", .str "Ana")] []).snd =
      .ok { id := "s1", formID := "f1", status := "unread"
            data := [("name", .str "Ana")], meta := [], createdAt := 0 }) ∧
    (Submit
        { forms := [{ id := "f1", publicID := "p1", name := "Contact", status := "active",
                      accessMode := "with_key", submissionKey := "abc123",
                      submissionCount := 0 }], submissions := [] }
        true false "s1" 0 "p1" [("_submission_key", .str "xyz"), ("name", .str "Ana")] [] =
      ({ forms := [{ id := "f1", publicID := "p1", name := "Contact", status := "active",
                     accessMode := "with_key", submissionKey := "abc123",
                     submissionCount := 0 }], submissions := [] },
        .error .invalidSubmissionKey)) := by
  constructor
  · have h := (c6_keyed_mode_gate
      { forms := [{ id := "f1", publicID := "p1", name := "Contact", status := "active",
                    accessMode := "with_key", submissionKey := "abc123",
                    submissionCount := 0 }], submissions := [] }
      false "s1" 0 "p1"
      { id := "f1", publicID := "p1", name := "Contact", status := "active",
        accessMode := "with_key", submissionKey := "abc123", submissionCount := 0 }
      [("_submission_key", .str "abc123"), ("name", .str "Ana")] []
      (by decide) (by decide) (by decide) (by decide)).1 (by decide)
    exact h.1.trans rfl
  · exact (c6_keyed_mode_gate
      { forms := [{ id := "f1", publicID := "p1", name := "Contact", status := "active",
                    accessMode := "with_key", submissionKey := "abc123",
                    submissionCount := 0 }], submissions := [] }
      false "s1" 0 "p1"
      { id := "f1", publicID := "p1", name := "Contact", status := "active",
        accessMode := "with_key", submissionKey := "abc123", submissionCount := 0 }
      [("_submission_key", .str "xyz"), ("name", .str "Ana")] []
      (by decide) (by decide) (by decide) (by decide)).2 (by decide)

/-- Claim C7: an active form whose access-mode string is not one of the two
recognized gated values falls through the default branch of the switch, so
the submission is admitted with no key or authentication check — exactly the
behaviour of the public (open) mode, with data and meta untouched. -/
theorem c7_unrecognized_mode_open (form : Form) (data meta : List (String × JsonValue))
    (hnk : form.accessMode ≠ "with_key") (hnp : form.accessMode ≠ "private") :
    accessCheck form data meta = .ok (data, meta) ∧
    accessCheck form data meta = accessCheck { form with accessMode := "public" } data meta ∧
    (∀ (st : RepoState) (incOk : Bool) (newID : String) (now : Int) (pid : String),
      findForm pid st.forms = some form → form.status = "active" →
        (Submit st true incOk newID now pid data meta).snd =
          .ok { id := newID, formID := form.id, status := "unread"
                data := data, meta := meta, createdAt := now }) := by
  have hac : accessCheck form data meta = .ok (data, meta) := by
    unfold accessCheck
    simp [hnk, hnp]
  refine ⟨hac, ?_, ?_⟩
  · rw [hac]
    unfold accessCheck
    simp
  · intro st incOk newID now pid hfind hstatus
    simp only [Submit, hfind, hstatus, ne_eq, not_true_eq_false, if_false, hac]
    cases incOk <;> simp

/-- Witness for C7 at a concrete form carrying a legacy mode string. -/
theorem c7_witness :
    accessCheck
        { id := "f1", publicID := "p1", name := "Contact", status := "active",
          accessMode := "legacy-mode", submissionKey := "", submissionCount := 0 }
        [("name", .str "Ana")] [] =
      .ok ([("name", .str "Ana")], []) ∧
    (Submit { forms := [{ id := "f1", publicID := "p1", name := "Contact", status := "active",
                          accessMode := "legacy-mode", submissionKey := "",
                          submissionCount := 0 }], submissions := [] }
        true true "s1" 0 "p1" [("name", .str "Ana")] []).snd =
      .ok { id := "s1", formID := "f1", status := "unread"
            data := [("name", .str "Ana")], meta := [], createdAt := 0 } := by
  constructor
  · exact (c7_unrecognized_mode_open
      { id := "f1", publicID := "p1", name := "Contact", status := "active",
        accessMode := "legacy-mode", submissionKey := "", submissionCount := 0 }
      [("name", .str "Ana")] [] (by decide) (by decide)).1
  · exact (c7_unrecognized_mode_open
      { id := "f1", publicID := "p1", name := "Contact", status := "active",
        accessMode := "legacy-mode", submissionKey := "", submissionCount := 0 }
      [("name", .str "Ana")] [] (by decide) (by decide)).2.2
      { forms := [{ id := "f1", publicID := "p1", name := "Contact", status := "active",
                    accessMode := "legacy-mode", submissionKey := "",
                    submissionCount := 0 }], submissions := [] }
      true "s1" 0 "p1" (by decide) (by decide)

/-- Claim C8: with the durable submission write succeeding, a failing
best-effort counter increment changes neither the returned value nor the set
of persisted submission records, and an admitted record is persisted. -/
theorem c8_increment_failure_swallowed (st : RepoState) (newID : String) (now : Int)
    (pid : String) (data meta : List (String × JsonValue)) :
    (Submit st true false newID now pid data meta).snd =
      (Submit st true true newID now pid data meta).snd ∧
    (Submit st true false newID now pid data meta).fst.submissions =
      (Submit st true true newID now pid data meta).fst.submissions ∧
    (∀ sub : SubmissionRec, (Submit st true false newID now pid data meta).snd = .ok sub →
      sub ∈ (Submit st true false newID now pid data meta).fst.submissions) := by
  unfold Submit
  cases hf : findForm pid st.forms with
  | none => simp
  | some form =>
    by_cases hstatus : form.status ≠ "active"
    · simp [hstatus]
    · simp only [hstatus, if_false]
      cases hac : accessCheck form data meta with
      | error e => simp
      | ok pr =>
        obtain ⟨d2, m2⟩ := pr
        refine ⟨rfl, rfl, ?_⟩
        intro sub hsub
        have hsub2 : (⟨newID, form.id, "unread", d2, m2, now⟩ : SubmissionRec) = sub := by
          simpa using hsub
        subst hsub2
        simp

/-- Witness for C8: a concrete admitted submission with the counter
increment failing still returns the record and persists it. -/
theorem c8_witness :
    (Submit { forms := [{ id := "f1", publicID := "p1", name := "Contact", status := "active",
                          accessMode := "public", submissionKey := "",
                          submissionCount := 0 }], submissions := [] }
        true false "s1" 0 "p1" [("name", .str "Ana")] []).snd =
      (Submit { forms := [{ id := "f1", publicID := "p1", name := "Contact",
                            status := "active", accessMode := "public", submissionKey := "",
                            submissionCount := 0 }], submissions := [] }
          true true "s1" 0 "p1" [("name", .str "Ana")] []).snd ∧
    ({ id := "s1", formID := "f1", status := "unread", data := [("name", .str "Ana")],
       meta := [], createdAt := 0 } : SubmissionRec) ∈
      (Submit { forms := [{ id := "f1", publicID := "p1", name := "Contact",
                            status := "active", accessMode := "public", submissionKey := "",
                            submissionCount := 0 }], submissions := [] }
          true false "s1" 0 "p1" [("name", .str "Ana")] []).fst.submissions := by
  constructor
  · exact (c8_increment_failure_swallowed
      { forms := [{ id := "f1", publicID := "p1", name := "Contact", status := "active",
                    accessMode := "public", submissionKey := "", submissionCount := 0 }],
        submissions := [] } "s1" 0 "p1" [("name", .str "Ana")] []).1
  · exact (c8_increment_failure_swallowed
      { forms := [{ id := "f1", publicID := "p1", name := "Contact", status := "active",
                    accessMode := "public", submissionKey := "", submissionCount := 0 }],
        submissions := [] } "s1" 0 "p1" [("name", .str "Ana")] []).2.2
      { id := "s1", formID := "f1", status := "unread", data := [("name", .str "Ana")],
        meta := [], createdAt := 0 } rfl

/-- Claim C10: a keyed-mode form whose configured submission key is the
empty string rejects every submission — the empty-key guard fires even when
the submitted key field is itself the empty string and therefore equal to
the configured secret — so nothing is ever persisted to such a form. -/
theorem c10_empty_secret_rejects_all (st : RepoState) (createOk incOk : Bool)
    (newID : String) (now : Int) (pid : String) (form : Form)
    (data meta : List (String × JsonValue))
    (hfind : findForm pid st.forms = some form)
    (hstatus : form.status = "active")
    (hmode : form.accessMode = "with_key")
    (hkey : form.submissionKey = "") :
    Submit st createOk incOk newID now pid data meta = (st, .error .invalidSubmissionKey) := by
  have hguard : submittedKeyOf data = "" ∨ submittedKeyOf data ≠ form.submissionKey := by
    by_cases hk : submittedKeyOf data = ""
    · exact Or.inl hk
    · exact Or.inr (by rw [hkey]; exact hk)
  have hac : accessCheck form data meta = .error .invalidSubmissionKey := by
    unfold accessCheck
    simp only [hmode, if_true, if_pos hguard]
  simp [Submit, hfind, hstatus, hac]

/-- Witness for C10: the submitted key field holding the empty string —
equal to the configured empty secret — is still rejected with the repository
unchanged. -/
theorem c10_witness :
    Submit { forms := [{ id := "f1", publicID := "p1", name := "Contact", status := "active",
                         accessMode := "with_key", submissionKey := "",
                         submissionCount := 0 }], submissions := [] }
        true true "s1" 0 "p1" [("_submission_key", .str ""), ("name", .str "Ana")] [] =
      ({ forms := [{ id := "f1", publicID := "p1", name := "Contact", status := "active",
                     accessMode := "with_key", submissionKey := "",
                     submissionCount := 0 }], submissions := [] },
        .error .invalidSubmissionKey) :=
  c10_empty_secret_rejects_all
    { forms := [{ id := "f1", publicID := "p1", name := "Contact", status := "active",
                  accessMode := "with_key", submissionKey := "", submissionCount := 0 }],
      submissions := [] }
    true true "s1" 0 "p1"
    { id := "f1", publicID := "p1", name := "Contact", status := "active",
      accessMode := "with_key", submissionKey := "", submissionCount := 0 }
    [("_submission_key", .str ""), ("name", .str "Ana")] []
    (by decide) (by decide) (by decide) (by decide)

/-- Counterexample to claim C9 as stated: with burst capacity 2 and window
10, the calls at times 0, 10, 11, 11 are all admitted (the refill at time 11
hands out fresh tokens while the time-10 admission is barely an instant
old), so the sub-window from time 1 to time 11 — of size exactly one window
— contains 3 > 2 admissions.  Admissions are bounded per refill epoch, not
per arbitrary sub-window of size W. -/
theorem c9_counterexample :
    runCalls ⟨[], 2, 10⟩ "src" [0, 10, 11, 11] = [true, true, true, true] ∧
    ((List.zip ([0, 10, 11, 11] : List Int)
        (runCalls ⟨[], 2, 10⟩ "src" [0, 10, 11, 11])).filter
      (fun p => decide (1 ≤ p.fst) && decide (p.fst ≤ 11) && p.snd)).length = 3 := by
  constructor <;> decide

theorem drain_eq_range_map (m k : Nat) :
    drain m k = (List.range k).map (fun i => decide (i < m)) := by
  induction k generalizing m with
  | zero => simp [drain]
  | succ k ih =>
    rw [List.range_succ_eq_map]
    simp only [drain, List.map_cons, List.map_map]
    congr 1
    rw [ih (m - 1)]
    apply List.map_congr_left
    intro i _
    simp only [Function.comp_apply]
    by_cases h : i + 1 < m
    · rw [decide_eq_true (show i < m - 1 by omega), decide_eq_true (show i.succ < m by omega)]
    · rw [decide_eq_false (show ¬ i < m - 1 by omega),
        decide_eq_false (show ¬ i.succ < m by omega)]

theorem runCalls_drain (ip : String) (N : Nat) (W t0 : Int) :
    ∀ (ts : List Int) (m : Nat), (∀ t ∈ ts, t ≤ t0 + W) →
      runCalls ⟨[(ip, ⟨m, t0⟩)], N, W⟩ ip ts = drain m ts.length := by
  intro ts
  induction ts with
  | nil => intro m hts; rfl
  | cons t rest ih =>
    intro m hts
    have ht : t ≤ t0 + W := hts t (List.mem_cons_self t rest)
    have hnorefill : ¬ (W < t - t0) := by omega
    have hget : getVisitor ⟨[(ip, ⟨m, t0⟩)], N, W⟩ t ip =
        (⟨m, t0⟩, ⟨[(ip, ⟨m, t0⟩)], N, W⟩) := by
      unfold getVisitor
      simp [lookupKey, hnorefill]
    by_cases hm : 0 < m
    · have hallow : allow ⟨[(ip, ⟨m, t0⟩)], N, W⟩ t ip =
          (true, ⟨[(ip, ⟨m - 1, t0⟩)], N, W⟩) := by
        unfold allow
        rw [hget]
        simp [hm, setKey]
      simp only [runCalls, hallow]
      rw [ih (m - 1) (fun u hu => hts u (List.mem_cons_of_mem t hu))]
      simp [drain, hm]
    · have hallow : allow ⟨[(ip, ⟨m, t0⟩)], N, W⟩ t ip =
          (false, ⟨[(ip, ⟨m, t0⟩)], N, W⟩) := by
        unfold allow
        rw [hget]
        simp [hm]
      simp only [runCalls, hallow]
      rw [ih m (fun u hu => hts u (List.mem_cons_of_mem t hu))]
      have hm0 : m = 0 := by omega
      simp [drain, hm0]

/-- Claim C9 amended: per refill epoch, not per arbitrary sub-window.  From
a fresh bucket with capacity N and window W, among calls all made at most W
after the first call (so no refill occurs), the i-th call is admitted if and
only if i is below N — exactly the first N succeed and the following calls,
the (N+1)th included, are rejected; and once strictly more than W has
elapsed since the bucket's last reset, the bucket refills to N and a call is
admitted again (for N positive). -/
theorem c9_token_bucket_epoch (ip : String) (N : Nat) (W : Int) :
    (∀ (t0 : Int) (ts : List Int), (∀ t ∈ ts, t ≤ t0 + W) →
      runCalls ⟨[], N, W⟩ ip (t0 :: ts) =
        (List.range (ts.length + 1)).map (fun i => decide (i < N))) ∧
    (∀ (t0 t : Int) (m : Nat), W < t - t0 → 0 < N →
      (allow ⟨[(ip, ⟨m, t0⟩)], N, W⟩ t ip).fst = true) := by
  constructor
  · intro t0 ts hts
    have hget : getVisitor ⟨[], N, W⟩ t0 ip =
        (⟨N, t0⟩, ⟨[(ip, ⟨N, t0⟩)], N, W⟩) := by
      unfold getVisitor
      simp [lookupKey, setKey]
    rw [← drain_eq_range_map]
    by_cases hN : 0 < N
    · have hallow : allow ⟨[], N, W⟩ t0 ip =
          (true, ⟨[(ip, ⟨N - 1, t0⟩)], N, W⟩) := by
        unfold allow
        rw [hget]
        simp [hN, setKey]
      simp only [runCalls, hallow]
      rw [runCalls_drain ip N W t0 ts (N - 1) hts]
      simp [drain, hN]
    · have hallow : allow ⟨[], N, W⟩ t0 ip =
          (false, ⟨[(ip, ⟨N, t0⟩)], N, W⟩) := by
        unfold allow
        rw [hget]
        simp [hN]
      simp only [runCalls, hallow]
      rw [runCalls_drain ip N W t0 ts N hts]
      have hN0 : N = 0 := by omega
      simp [drain, hN0]
  · intro t0 t m hW hN
    have hget : getVisitor ⟨[(ip, ⟨m, t0⟩)], N, W⟩ t ip =
        (⟨N, t⟩, ⟨[(ip, ⟨N, t⟩)], N, W⟩) := by
      unfold getVisitor
      simp [lookupKey, setKey, hW]
    unfold allow
    rw [hget]
    simp [hN]

/-- Witness for C9 amended at capacity 2, window 10: four in-window calls
admit exactly the first two, and a call after the window refills. -/
theorem c9_witness :
    runCalls ⟨[], 2, 10⟩ "src" [0, 1, 2, 3] = [true, true, false, false] ∧
    (allow ⟨[("src", ⟨0, 0⟩)], 2, 10⟩ 11 "src").fst = true := by
  constructor
  · have h := (c9_token_bucket_epoch "src" 2 10).1 0 [1, 2, 3] (by decide)
    rw [h]
    decide
  · exact (c9_token_bucket_epoch "src" 2 10).2 0 11 0 (by decide) (by decide)

/-- Claim C2: every delivery run posts the one marshalled body on every
attempt, makes at most 3 attempts, stops at the first 2xx response, retries
on any non-2xx status or transport error while attempts remain, and sleeps
1 second after the first failure and 2 seconds after the second (the sleeps
are always the first attempts-minus-one entries of the 1s, 2s backoff
table). -/
theorem c2_delivery_retry (responses : Nat → AttemptResult) (body : List Nat) :
    (deliver responses body).sentBodies.length ≤ 3 ∧
    (∀ b ∈ (deliver responses body).sentBodies, b = body) ∧
    (deliver responses body).sleeps =
      List.take ((deliver responses body).sentBodies.length - 1) [1, 2] ∧
    (∀ k, 1 ≤ k → k ≤ 3 → attemptOk (responses k) = true →
      (∀ j, 1 ≤ j → j < k → attemptOk (responses j) = false) →
      (deliver responses body).delivered = true ∧
        (deliver responses body).sentBodies.length = k) ∧
    ((∀ j, 1 ≤ j → j ≤ 3 → attemptOk (responses j) = false) →
      (deliver responses body).delivered = false ∧
        (deliver responses body).sentBodies.length = 3) := by
  cases h1 : attemptOk (responses 1) with
  | true =>
    have hd : deliver responses body = ⟨[body], [], true⟩ := by
      simp [deliver, deliverGo, webhookRetries, h1]
    rw [hd]
    refine ⟨by simp, by simp, by simp, ?_, ?_⟩
    · intro k hk1 hk3 hok hprev
      rcases Nat.lt_or_ge k 2 with hk | hk
      · have hke : k = 1 := by omega
        subst hke
        exact ⟨rfl, rfl⟩
      · have hcontra := hprev 1 (by omega) (by omega)
        rw [h1] at hcontra
        simp at hcontra
    · intro hall
      have hcontra := hall 1 (by omega) (by omega)
      rw [h1] at hcontra
      simp at hcontra
  | false =>
    cases h2 : attemptOk (responses 2) with
    | true =>
      have hd : deliver responses body = ⟨[body, body], [1], true⟩ := by
        simp [deliver, deliverGo, webhookRetries, h1, h2]
      rw [hd]
      refine ⟨by simp, by simp, by simp, ?_, ?_⟩
      · intro k hk1 hk3 hok hprev
        have hk2 : k = 2 := by
          rcases Nat.lt_or_ge k 2 with hk | hk
          · exfalso
            have hke : k = 1 := by omega
            subst hke
            rw [h1] at hok
            simp at hok
          · rcases Nat.lt_or_ge k 3 with hk3a | hk3a
            · omega
            · exfalso
              have hke : k = 3 := by omega
              subst hke
              have hcontra := hprev 2 (by omega) (by omega)
              rw [h2] at hcontra
              simp at hcontra
        subst hk2
        exact ⟨rfl, rfl⟩
      · intro hall
        have hcontra := hall 2 (by omega) (by omega)
        rw [h2] at hcontra
        simp at hcontra
    | false =>
      cases h3 : attemptOk (responses 3) with
      | true =>
        have hd : deliver responses body = ⟨[body, body, body], [1, 2], true⟩ := by
          simp [deliver, deliverGo, webhookRetries, h1, h2, h3]
        rw [hd]
        refine ⟨by simp, by simp, by simp, ?_, ?_⟩
        · intro k hk1 hk3 hok hprev
          have hke : k = 3 := by
            rcases Nat.lt_or_ge k 2 with hk | hk
            · exfalso
              have hke : k = 1 := by omega
              subst hke
              rw [h1] at hok
              simp at hok
            · rcases Nat.lt_or_ge k 3 with hk3a | hk3a
              · exfalso
                have hke : k = 2 := by omega
                subst hke
                rw [h2] at hok
                simp at hok
              · omega
          subst hke
          exact ⟨rfl, rfl⟩
        · intro hall
          have hcontra := hall 3 (by omega) (by omega)
          rw [h3] at hcontra
          simp at hcontra
      | false =>
        have hd : deliver responses body = ⟨[body, body, body], [1, 2], false⟩ := by
          simp [deliver, deliverGo, webhookRetries, h1, h2, h3]
        rw [hd]
        refine ⟨by simp, by simp, by simp, ?_, ?_⟩
        · intro k hk1 hk3 hok hprev
          exfalso
          rcases Nat.lt_or_ge k 2 with hk | hk
          · have hke : k = 1 := by omega
            subst hke
            rw [h1] at hok
            simp at hok
          · rcases Nat.lt_or_ge k 3 with hk3a | hk3a
            · have hke : k = 2 := by omega
              subst hke
              rw [h2] at hok
              simp at hok
            · have hke : k = 3 := by omega
              subst hke
              rw [h3] at hok
              simp at hok
        · intro hall
          exact ⟨rfl, rfl⟩

/-- Witness for C2: failure then success stops after the second attempt with
one 1-second sleep, and sustained failure stops after three attempts with
sleeps of 1 then 2 seconds. -/
theorem c2_witness :
    ((deliver (fun k => if k = 2 then .status 204 else .status 500) [7]).delivered = true ∧
      (deliver (fun k => if k = 2 then .status 204 else .status 500) [7]).sentBodies.length =
        2) ∧
    (deliver (fun _ => .transportError) [7]).delivered = false ∧
    (deliver (fun _ => .transportError) [7]).sentBodies.length = 3 := by
  constructor
  · refine (c2_delivery_retry (fun k => if k = 2 then .status 204 else .status 500) [7]).2.2.2.1
      2 (by omega) (by omega) (by decide) ?_
    intro j hj1 hj2
    have hje : j = 1 := by omega
    subst hje
    decide
  · exact (c2_delivery_retry (fun _ => .transportError) [7]).2.2.2.2
      (fun j hj1 hj3 => by decide)

theorem sha256_length (msg : List Nat) : (sha256 msg).length = 32 := by
  simp [sha256, digestBytes, wordBytes]

theorem sha256_bytes_lt (msg : List Nat) : ∀ b ∈ sha256 msg, b < 256 := by
  intro b hb
  simp only [sha256, digestBytes, wordBytes, List.mem_append, List.mem_cons,
    List.not_mem_nil, or_false] at hb
  omega

theorem hmac_length (key msg : List Nat) : (hmacSha256 key msg).length = 32 := by
  unfold hmacSha256
  exact sha256_length _

theorem hmac_bytes_lt (key msg : List Nat) : ∀ b ∈ hmacSha256 key msg, b < 256 := by
  unfold hmacSha256
  exact sha256_bytes_lt _

theorem getD_lt_256 (l : List Nat) (h : ∀ b ∈ l, b < 256) (i : Nat) : l.getD i 0 < 256 := by
  rcases Nat.lt_or_ge i l.length with hi | hi
  · rw [List.getD_eq_getElem l 0 hi]
    exact h _ (List.getElem_mem hi)
  · rw [List.getD_eq_default l 0 hi]
    norm_num

theorem hmac_exists_collision (secret : List Nat) :
    ∃ b1 b2 : List Nat, b1 ≠ b2 ∧ hmacSha256 secret b1 = hmacSha256 secret b2 := by
  have hcard : Fintype.card (Fin 32 → Fin 256) < Fintype.card (Fin 33 → Fin 256) := by
    simp only [Fintype.card_fun, Fintype.card_fin]
    exact pow_lt_pow_right₀ (by norm_num) (by norm_num)
  obtain ⟨g1, g2, hne, heq⟩ := Fintype.exists_ne_map_eq_of_card_lt (hmacImage secret) hcard
  refine ⟨byteFun33ToBytes g1, byteFun33ToBytes g2, ?_, ?_⟩
  · intro h
    apply hne
    apply List.ofFn_injective
    exact List.map_injective_iff.mpr Fin.val_injective h
  · apply List.ext_getElem
    · rw [hmac_length, hmac_length]
    · intro i h1 h2
      have hi32 : i < 32 := by rw [hmac_length] at h1; exact h1
      have hfun := congrFun heq ⟨i, hi32⟩
      have hv := congrArg Fin.val hfun
      simp only [hmacImage] at hv
      have hb1 : (hmacSha256 secret (byteFun33ToBytes g1)).getD i 0 < 256 :=
        getD_lt_256 _ (hmac_bytes_lt _ _) i
      have hb2 : (hmacSha256 secret (byteFun33ToBytes g2)).getD i 0 < 256 :=
        getD_lt_256 _ (hmac_bytes_lt _ _) i
      rw [Nat.mod_eq_of_lt hb1, Nat.mod_eq_of_lt hb2] at hv
      rw [List.getD_eq_getElem _ 0 h1, List.getD_eq_getElem _ 0 h2] at hv
      exact hv

/-- Counterexample to the universal distinctness clause of claim C1: two
distinct payload byte sequences with identical signatures exist for any
fixed secret — HMAC-SHA256 maps the 2^264 payloads of 33 bytes into at most
2^256 digests, so by pigeonhole it is not injective and neither is the
signature header derived from it. -/
theorem c1_counterexample :
    ¬ (∀ b1 b2 : List Nat, b1 ≠ b2 → signPayload b1 "whsec" ≠ signPayload b2 "whsec") := by
  intro hall
  obtain ⟨b1, b2, hne, heq⟩ := hmac_exists_collision (strBytes "whsec")
  exact hall b1 b2 hne (by simp [signPayload, heq])

theorem hexDigit_mem_lower : ∀ n, n < 16 → hexDigit n ∈ "0123456789abcdef".toList := by
  decide

theorem hexEncode_lower (bytes : List Nat) (hb : ∀ b ∈ bytes, b < 256) :
    ∀ c ∈ (hexEncode bytes).toList, c ∈ "0123456789abcdef".toList := by
  intro c hc
  have hflat :
      (hexEncode bytes).toList =
        List.flatten (bytes.map (fun b => [hexDigit (b / 16), hexDigit (b % 16)])) := rfl
  rw [hflat] at hc
  simp only [List.mem_flatten, List.mem_map] at hc
  obtain ⟨l, ⟨b, hbmem, hbl⟩, hcl⟩ := hc
  subst hbl
  have hblt := hb b hbmem
  simp only [List.mem_cons, List.not_mem_nil, or_false] at hcl
  rcases hcl with hcl | hcl
  · subst hcl
    exact hexDigit_mem_lower (b / 16) (by omega)
  · subst hcl
    exact hexDigit_mem_lower (b % 16) (by omega)

/-- Claim C1 amended: the delivery request carries the signature header
exactly when the secret is non-empty, its value is the sha256= prefix
followed by the lowercase hex HMAC-SHA256 of the body keyed by the secret
(every digest character is a lowercase hex digit), and no signature header
is set for the empty secret.  Distinct payloads are not guaranteed distinct
signatures: HMAC-SHA256 is provably not injective (see the pigeonhole
counterexample), although no explicit colliding pair is computable in
practice. -/
theorem c1_signature_header (body : List Nat) (secret timestamp : String) :
    (secret ≠ "" →
      lookupKey "X-Webhook-Signature" (buildHeaders secret body timestamp) =
        some ("sha256=" ++ hexEncode (hmacSha256 (strBytes secret) body)) ∧
      ∀ c ∈ (hexEncode (hmacSha256 (strBytes secret) body)).toList,
        c ∈ "0123456789abcdef".toList) ∧
    (secret = "" →
      lookupKey "X-Webhook-Signature" (buildHeaders secret body timestamp) = none) := by
  constructor
  · intro hs
    constructor
    · simp only [buildHeaders, hs, if_false, signPayload]
      simp [lookupKey]
    · exact hexEncode_lower _ (hmac_bytes_lt _ _)
  · intro hs
    simp only [buildHeaders, hs, if_true]
    simp [lookupKey]

/-- Witness for C1 amended at a concrete secret, body and timestamp. -/
theorem c1_witness :
    lookupKey "X-Webhook-Signature" (buildHeaders "whsec" [104, 105] "2026-10-11T00:00:00Z") =
      some ("sha256=" ++ hexEncode (hmacSha256 (strBytes "whsec") [104, 105])) ∧
    lookupKey "X-Webhook-Signature" (buildHeaders "" [104, 105] "2026-10-11T00:00:00Z") =
      none := by
  constructor
  · exact ((c1_signature_header [104, 105] "whsec" "2026-10-11T00:00:00Z").1 (by decide)).1
  · exact (c1_signature_header [104, 105] "" "2026-10-11T00:00:00Z").2 rfl
